import Mathlib

/-
  Verification development for `NDFileNetCDF.cpp` (areaDetector netCDF file
  writer plugin).  The C++ methods `NDFileNetCDF::openFile`, `writeFile` and
  `closeFile` are shallowly embedded below: the netCDF library calls
  (`nc_def_dim`, `nc_def_var`, `nc_put_att_*`, `nc_put_vara_*`) are modelled as
  pure updates of an explicit `NcFile` value plus a trace of slab writes, and
  the plugin object's fields (`nextRecord`, `pAttributeId`, `uniqueIdId`,
  `timeStampId`, `arrayDataId`) form an explicit `Session` state that every
  operation threads.  netCDF calls themselves are assumed to succeed (their
  failures are external I/O conditions); the error paths that originate in the
  translated code (unsupported open modes, undefined attribute data types) are
  modelled faithfully.
-/

namespace NDFileNetCDF

/-- `NDDataType_t`: the element type of an `NDArray` (from the areaDetector
data model; the constructor list mirrors the enum). -/
inductive NDDataType
  | NDInt8
  | NDUInt8
  | NDInt16
  | NDUInt16
  | NDInt32
  | NDUInt32
  | NDFloat32
  | NDFloat64
deriving DecidableEq

/-- `NDAttrDataType_t`: the data type of an `NDAttribute`. -/
inductive NDAttrDataType
  | NDAttrInt8
  | NDAttrUInt8
  | NDAttrInt16
  | NDAttrUInt16
  | NDAttrInt32
  | NDAttrUInt32
  | NDAttrFloat32
  | NDAttrFloat64
  | NDAttrString
  | NDAttrUndefined
deriving DecidableEq

/-- The netCDF external data types used by the translated code
(`NC_NAT` is the "not a type" initializer). -/
inductive NcType
  | NC_NAT
  | NC_BYTE
  | NC_CHAR
  | NC_SHORT
  | NC_INT
  | NC_FLOAT
  | NC_DOUBLE
deriving DecidableEq

/-- One entry of `NDArray::dims`: `NDDimension_t {size, offset, binning, reverse}`. -/
structure NDDimension where
  size : Nat
  offset : Int
  binning : Int
  reverse : Int
deriving DecidableEq

/-- An `NDAttribute`: name, description and data type, plus (for string-typed
attributes) the character payload.  Numeric payloads are carried opaquely: no
claim inspects a numeric attribute value, only which attribute it came from. -/
structure NDAttribute where
  name : String
  description : String
  dataType : NDAttrDataType
  value : List Char
deriving DecidableEq

/-- An `NDArray` frame as seen by the translated code.  `ndims` of the C struct
is `dims.length`; the raw data buffer is carried opaquely (the write call
passes it through without looking at it), and `timeStamp` (a C `double`) is a
token whose numeric value no claim inspects. -/
structure NDArray where
  dataType : NDDataType
  dims : List NDDimension
  uniqueId : Int
  timeStamp : Int
  attributes : List NDAttribute
deriving DecidableEq

/-- `NDFileOpenMode_t` is a bit mask; the four flags tested by the code are
modelled as four booleans. -/
structure NDFileOpenMode where
  read : Bool
  write : Bool
  append : Bool
  multiple : Bool
deriving DecidableEq

/-- `asynStatus` restricted to the two values the translated code returns. -/
inductive AsynStatus
  | asynSuccess
  | asynError
deriving DecidableEq

/-- netCDF's `NC_UNLIMITED` length constant: a dimension defined with length 0
is the unlimited (growable) dimension. -/
def NC_UNLIMITED : Nat := 0

/-- `MAX_ATTRIBUTE_STRING_SIZE` from the source: fixed cap on attribute
strings. -/
def MAX_ATTRIBUTE_STRING_SIZE : Nat := 256

/-- A netCDF dimension: name and length (length `NC_UNLIMITED = 0` means the
unlimited dimension).  Its id is its index in `NcFile.dims`. -/
structure NcDim where
  name : String
  len : Nat
deriving DecidableEq

/-- A netCDF variable: name, external type, and the ids of its dimensions.
Its id is its index in `NcFile.vars`. -/
structure NcVar where
  name : String
  ncType : NcType
  dimIds : List Nat
deriving DecidableEq

/-- The structural content of the netCDF file built by `openFile`: the
dimensions and variables defined so far and the global attributes written so
far (`attsInt` for `nc_put_att_int`, `attsText` for `nc_put_att_text`,
`attsDouble` keeps the names of `nc_put_att_double` attributes, whose
floating-point payload no claim inspects). -/
structure NcFile where
  fileName : String
  dims : List NcDim
  vars : List NcVar
  attsInt : List (String × List Int)
  attsText : List (String × String)
  attsDouble : List String
deriving DecidableEq

/-- `nc_def_dim`: appends a dimension; the id handed back is the number of
dimensions already defined, i.e. `f.dims.length` before the call. -/
def addDim (f : NcFile) (name : String) (len : Nat) : NcFile :=
  { f with dims := f.dims ++ [⟨name, len⟩] }

/-- `nc_def_var`: appends a variable; the id handed back is `f.vars.length`
before the call. -/
def addVar (f : NcFile) (name : String) (t : NcType) (dimIds : List Nat) : NcFile :=
  { f with vars := f.vars ++ [⟨name, t, dimIds⟩] }

/-- `nc_put_att_int` on `NC_GLOBAL`. -/
def putAttInt (f : NcFile) (name : String) (vals : List Int) : NcFile :=
  { f with attsInt := f.attsInt ++ [(name, vals)] }

/-- `nc_put_att_text` on `NC_GLOBAL`. -/
def putAttText (f : NcFile) (name : String) (s : String) : NcFile :=
  { f with attsText := f.attsText ++ [(name, s)] }

/-- `nc_put_att_double` on `NC_GLOBAL` (payload abstracted). -/
def putAttDouble (f : NcFile) (name : String) : NcFile :=
  { f with attsDouble := f.attsDouble ++ [name] }

/-- The plugin object's per-session state: the write cursor `nextRecord`, the
attribute-to-variable-id array `pAttributeId` (`none` models the `NULL`
pointer set by the constructor), and the three variable ids remembered at
define time. -/
structure Session where
  nextRecord : Nat
  pAttributeId : Option (List Nat)
  uniqueIdId : Nat
  timeStampId : Nat
  arrayDataId : Nat
deriving DecidableEq

/-- Integer code of an `NDDataType` as stored by `nc_put_att_int` for the
`dataType` global attribute (enum declaration order; no claim depends on the
numeric values). -/
def dataTypeCode : NDDataType → Int
  | .NDInt8 => 0
  | .NDUInt8 => 1
  | .NDInt16 => 2
  | .NDUInt16 => 3
  | .NDInt32 => 4
  | .NDUInt32 => 5
  | .NDFloat32 => 6
  | .NDFloat64 => 7

/-- Integer code of an `NDAttrDataType` as stored for the `<name>_DataType`
global attribute (enum declaration order; no claim depends on the values). -/
def attrDataTypeCode : NDAttrDataType → Int
  | .NDAttrInt8 => 0
  | .NDAttrUInt8 => 1
  | .NDAttrInt16 => 2
  | .NDAttrUInt16 => 3
  | .NDAttrInt32 => 4
  | .NDAttrUInt32 => 5
  | .NDAttrFloat32 => 6
  | .NDAttrFloat64 => 7
  | .NDAttrString => 8
  | .NDAttrUndefined => 9

/-- The `switch (pArray->dataType)` of `openFile` (lines 144-163): NDArray
element type to netCDF external type. -/
def ncTypeOfDataType : NDDataType → NcType
  | .NDInt8 => .NC_BYTE
  | .NDUInt8 => .NC_BYTE
  | .NDInt16 => .NC_SHORT
  | .NDUInt16 => .NC_SHORT
  | .NDInt32 => .NC_INT
  | .NDUInt32 => .NC_INT
  | .NDFloat32 => .NC_FLOAT
  | .NDFloat64 => .NC_DOUBLE

/-- The `switch (attrDataType)` of `openFile` (lines 198-223): attribute data
type to netCDF external type; `NDAttrUndefined` hits the `return(asynError)`
arm, modelled as `none`. -/
def attrTypeToNc : NDAttrDataType → Option NcType
  | .NDAttrInt8 => some .NC_BYTE
  | .NDAttrUInt8 => some .NC_BYTE
  | .NDAttrInt16 => some .NC_SHORT
  | .NDAttrUInt16 => some .NC_SHORT
  | .NDAttrInt32 => some .NC_INT
  | .NDAttrUInt32 => some .NC_INT
  | .NDAttrFloat32 => some .NC_FLOAT
  | .NDAttrFloat64 => some .NC_DOUBLE
  | .NDAttrString => some .NC_CHAR
  | .NDAttrUndefined => none

/-- `pArray->dims[j]`: C array indexing on the dimension list (indices in the
translated loops are always in range, so the default is never reached there). -/
def dimAt (dims : List NDDimension) (j : Nat) : NDDimension :=
  dims.getD j ⟨0, 0, 0, 0⟩

/-- The dimension defined at iteration `i` of the loop at lines 113-122:
name `"dim<i>"` and length `pArray->dims[ndims-i-1].size` (reversed order). -/
def dataDimOf (allDims : List NDDimension) (i : Nat) : NcDim :=
  ⟨"dim" ++ toString i, (dimAt allDims (allDims.length - i - 1)).size⟩

/-- The loop at lines 113-122 of `openFile`: for `i = 0 .. ndims-1` define a
dimension named `"dim<i>"` of length `dims[ndims-i-1].size`, collecting the
returned ids into `dimIds[i+1]`.  `fuel` is the number of remaining
iterations (`ndims` at the initial call). -/
def defDataDims (allDims : List NDDimension) :
    Nat → Nat → NcFile → List Nat → NcFile × List Nat
  | 0, _, f, ids => (f, ids)
  | fuel + 1, i, f, ids =>
      let j := allDims.length - i - 1
      let id := f.dims.length
      let f1 := addDim f ("dim" ++ toString i) (dimAt allDims j).size
      defDataDims allDims fuel (i + 1) f1 (ids ++ [id])

/-- The per-attribute loop of `openFile` (lines 185-234): for each attribute,
write its `<name>_DataType` and `<name>_Description` global attributes, map
its data type through the type switch (`NDAttrUndefined` returns
`asynError`), and define its variable — 2-D over `stringDimIds` for string
attributes, 1-D over the record dimension otherwise — storing the variable id
at position `attrCount` of the `pAttributeId` array. -/
def defineAttrVars (rec0 : Nat) (stringDimIds : List Nat) :
    List NDAttribute → Nat → NcFile → List Nat → AsynStatus × NcFile × List Nat
  | [], _, f, ids => (.asynSuccess, f, ids)
  | a :: rest, attrCount, f, ids =>
      let f1 := putAttInt f (a.name ++ "_DataType") [attrDataTypeCode a.dataType]
      let f2 := putAttText f1 (a.name ++ "_Description") a.description
      match attrTypeToNc a.dataType with
      | none => (.asynError, f2, ids)
      | some nct =>
          let vid := f2.vars.length
          let f3 := if a.dataType = .NDAttrString then addVar f2 a.name nct stringDimIds
                    else addVar f2 a.name nct [rec0]
          defineAttrVars rec0 stringDimIds rest (attrCount + 1) f3 (ids.set attrCount vid)

/-- Result of `openFile`: the returned status, the plugin state after the
call, and the netCDF file (`none` when `nc_create` was never reached). -/
structure OpenResult where
  status : AsynStatus
  sess : Session
  file : Option NcFile
deriving DecidableEq

/-- `NDFileNetCDF::openFile` (lines 42-241), translated statement by
statement.  netCDF calls are assumed to succeed; the two error sources in the
translated code are the unsupported-mode checks (before anything is created)
and an `NDAttrUndefined` attribute in the define loop (after which the
partially defined file and partially filled id array remain, as in the C). -/
def openFile (fileName : String) (openMode : NDFileOpenMode) (pArray : NDArray)
    (s : Session) : OpenResult :=
  if openMode.read then ⟨.asynError, s, none⟩
  else if openMode.append then ⟨.asynError, s, none⟩
  else
    let s1 := { s with nextRecord := 0 }
    let f0 : NcFile :=
      { fileName := fileName, dims := [], vars := [], attsInt := [], attsText := [],
        attsDouble := [] }
    let f1 := putAttInt f0 "dataType" [dataTypeCode pArray.dataType]
    let f2 := putAttDouble f1 "NDNetCDFFileVersion"
    let f3 := putAttInt f2 "numArrayDims" [(pArray.dims.length : Int)]
    let dim0 := if openMode.multiple then NC_UNLIMITED else 1
    let rec0 := f3.dims.length
    let f4 := addDim f3 "numArrays" dim0
    let f5res := defDataDims pArray.dims pArray.dims.length 0 f4 []
    let f5 := f5res.1
    let dimIds := rec0 :: f5res.2
    let strDimId := f5.dims.length
    let f6 := addDim f5 "attrStringSize" MAX_ATTRIBUTE_STRING_SIZE
    let stringDimIds := [rec0, strDimId]
    let f7 := putAttInt f6 "dimSize" (pArray.dims.map fun d => (d.size : Int))
    let f8 := putAttInt f7 "dimOffset" (pArray.dims.map fun d => d.offset)
    let f9 := putAttInt f8 "dimBinning" (pArray.dims.map fun d => d.binning)
    let f10 := putAttInt f9 "dimReverse" (pArray.dims.map fun d => d.reverse)
    let uid := f10.vars.length
    let f11 := addVar f10 "uniqueId" .NC_INT [rec0]
    let tid := f11.vars.length
    let f12 := addVar f11 "timeStamp" .NC_DOUBLE [rec0]
    let aid := f12.vars.length
    let f13 := addVar f12 "array_data" (ncTypeOfDataType pArray.dataType) dimIds
    let res := defineAttrVars rec0 stringDimIds pArray.attributes 0 f13
        (List.replicate pArray.attributes.length 0)
    ⟨res.1,
     { s1 with uniqueIdId := uid, timeStampId := tid, arrayDataId := aid,
               pAttributeId := some res.2.2 },
     some res.2.1⟩

/-- What a `nc_put_vara_*` call carries, beyond start/count: which logical
payload it writes.  Attribute payloads record the attribute they were fetched
from (`NDAttribute::getValue`); the raw frame buffer is carried as its element
type. -/
inductive SlabData
  | uniqueIdData (v : Int)
  | timeStampData (t : Int)
  | arrayData (dt : NDDataType)
  | attrNum (a : NDAttribute)
  | attrText (a : NDAttribute) (chars : List Char)
deriving DecidableEq

/-- One `nc_put_vara_*` call: target variable id, start offsets, extents, and
payload.  As in C, `start` and `count` may be longer than the variable's
rank; netCDF uses only the leading entries. -/
structure SlabWrite where
  varId : Nat
  start : List Nat
  count : List Nat
  payload : SlabData
deriving DecidableEq

/-- The `start` array computed at lines 263-269 of `writeFile`:
`start[0] = nextRecord`, `start[i+1] = 0`. -/
def writeStart (nextRecord : Nat) (dims : List NDDimension) : List Nat :=
  nextRecord :: (List.range dims.length).map (fun _ => 0)

/-- The `count` array computed at lines 263-269 of `writeFile`:
`count[0] = 1`, `count[i+1] = dims[ndims-i-1].size` (reversed order). -/
def writeCount (dims : List NDDimension) : List Nat :=
  1 :: (List.range dims.length).map (fun i => (dimAt dims (dims.length - i - 1)).size)

/-- Modelled from the spec: `NDAttribute::getValue` for a string attribute
(the `NDAttribute` class lives outside the translated source file).  The
bounded-length payload is copied into a caller buffer of
`MAX_ATTRIBUTE_STRING_SIZE` bytes: a value shorter than the cap is copied
whole, a longer one is truncated to fit the buffer and its terminator. -/
def getValueChars (a : NDAttribute) : List Char :=
  a.value.take (MAX_ATTRIBUTE_STRING_SIZE - 1)

/-- `this->pAttributeId[attrCount]` (reading `NULL` never happens in the
translated call sequence; it is given a harmless default here). -/
def attrIdAt (ids : Option (List Nat)) (attrCount : Nat) : Nat :=
  (ids.getD []).getD attrCount 0

/-- The slab write issued for one attribute at write time (lines 305-349):
numeric attributes reuse the frame's `start`/`count` arrays (their variable is
1-D, so only the leading entries matter); string attributes use
`stringCount = {1, strlen(attrString)}`. -/
def attrSlab (ids : Option (List Nat)) (start count : List Nat) (attrCount : Nat)
    (a : NDAttribute) : SlabWrite :=
  if a.dataType = .NDAttrString then
    { varId := attrIdAt ids attrCount, start := start,
      count := [1, (getValueChars a).length], payload := .attrText a (getValueChars a) }
  else
    { varId := attrIdAt ids attrCount, start := start, count := count,
      payload := .attrNum a }

/-- The attribute loop of `writeFile` (lines 302-349): in iteration order,
fetch each attribute's value and put it into the variable whose id sits at
position `attrCount` of `pAttributeId`; an `NDAttrUndefined` attribute
returns `asynError` immediately (no further slabs are written). -/
def writeAttrs (ids : Option (List Nat)) (start count : List Nat) :
    List NDAttribute → Nat → List SlabWrite → AsynStatus × List SlabWrite
  | [], _, acc => (.asynSuccess, acc)
  | a :: rest, attrCount, acc =>
      if a.dataType = .NDAttrUndefined then (.asynError, acc)
      else writeAttrs ids start count rest (attrCount + 1)
             (acc ++ [attrSlab ids start count attrCount a])

/-- The three slab writes of `writeFile` that precede the attribute loop:
`uniqueId`, `timeStamp` and `array_data`, all with the same `start`/`count`
arrays (the first two variables are 1-D, so only the record-axis entries
matter for them). -/
def headerWrites (pArray : NDArray) (s : Session) : List SlabWrite :=
  [ { varId := s.uniqueIdId, start := writeStart s.nextRecord pArray.dims,
      count := writeCount pArray.dims, payload := .uniqueIdData pArray.uniqueId },
    { varId := s.timeStampId, start := writeStart s.nextRecord pArray.dims,
      count := writeCount pArray.dims, payload := .timeStampData pArray.timeStamp },
    { varId := s.arrayDataId, start := writeStart s.nextRecord pArray.dims,
      count := writeCount pArray.dims, payload := .arrayData pArray.dataType } ]

/-- Result of `writeFile`: status, plugin state after the call, and the slab
writes this call issued, in order. -/
structure WriteResult where
  status : AsynStatus
  sess : Session
  writes : List SlabWrite
deriving DecidableEq

/-- `NDFileNetCDF::writeFile` (lines 248-352): compute the slab descriptor,
write `uniqueId`, `timeStamp` and the frame buffer, then the attributes in
iteration order; only on success is `nextRecord` incremented. -/
def writeFile (pArray : NDArray) (s : Session) : WriteResult :=
  let res := writeAttrs s.pAttributeId (writeStart s.nextRecord pArray.dims)
      (writeCount pArray.dims) pArray.attributes 0 (headerWrites pArray s)
  { status := res.1,
    sess := if res.1 = .asynSuccess then { s with nextRecord := s.nextRecord + 1 } else s,
    writes := res.2 }

/-- `NDFileNetCDF::closeFile` (lines 365-373): `nc_close` then return; no
field of the plugin object is touched. -/
def closeFile (s : Session) : AsynStatus × Session :=
  (.asynSuccess, s)


/-! ### Characterization of the dimension-definition loop -/

lemma defDataDims_fst (allDims : List NDDimension) (fuel i : Nat) (f : NcFile)
    (ids : List Nat) :
    (defDataDims allDims fuel i f ids).1 =
      { f with dims := f.dims ++ (List.range' i fuel).map (dataDimOf allDims) } := by
  induction fuel generalizing i f ids with
  | zero => simp [defDataDims]
  | succ n ih =>
      simp [defDataDims, ih, addDim, dataDimOf, List.range'_succ]

lemma defDataDims_snd (allDims : List NDDimension) (fuel i : Nat) (f : NcFile)
    (ids : List Nat) :
    (defDataDims allDims fuel i f ids).2 = ids ++ List.range' f.dims.length fuel := by
  induction fuel generalizing i f ids with
  | zero => simp [defDataDims]
  | succ n ih =>
      simp [defDataDims, ih, addDim, List.range'_succ]

/-- The file built by `openFile` up to (and excluding) the per-attribute loop:
record dimension first, the reversed data dimensions, the string-cap
dimension, the global metadata attributes, and the `uniqueId` / `timeStamp` /
`array_data` variables with ids 0, 1, 2. -/
def headerNc (fileName : String) (mode : NDFileOpenMode) (pArray : NDArray) : NcFile :=
  { fileName := fileName,
    dims := ⟨"numArrays", if mode.multiple then NC_UNLIMITED else 1⟩ ::
            ((List.range pArray.dims.length).map (dataDimOf pArray.dims) ++
             [⟨"attrStringSize", MAX_ATTRIBUTE_STRING_SIZE⟩]),
    vars := [⟨"uniqueId", .NC_INT, [0]⟩, ⟨"timeStamp", .NC_DOUBLE, [0]⟩,
             ⟨"array_data", ncTypeOfDataType pArray.dataType,
              0 :: List.range' 1 pArray.dims.length⟩],
    attsInt := [("dataType", [dataTypeCode pArray.dataType]),
                ("numArrayDims", [(pArray.dims.length : Int)]),
                ("dimSize", pArray.dims.map fun d => (d.size : Int)),
                ("dimOffset", pArray.dims.map fun d => d.offset),
                ("dimBinning", pArray.dims.map fun d => d.binning),
                ("dimReverse", pArray.dims.map fun d => d.reverse)],
    attsText := [],
    attsDouble := ["NDNetCDFFileVersion"] }

/-- The attribute-loop result `openFile` ends with, over the header file. -/
def openAttrRes (fileName : String) (mode : NDFileOpenMode) (pArray : NDArray) :
    AsynStatus × NcFile × List Nat :=
  defineAttrVars 0 [0, pArray.dims.length + 1] pArray.attributes 0
    (headerNc fileName mode pArray) (List.replicate pArray.attributes.length 0)

lemma openFile_eq (fileName : String) (mode : NDFileOpenMode) (pArray : NDArray)
    (s : Session) (hr : mode.read = false) (ha : mode.append = false) :
    openFile fileName mode pArray s =
      ⟨(openAttrRes fileName mode pArray).1,
       ⟨0, some (openAttrRes fileName mode pArray).2.2, 0, 1, 2⟩,
       some (openAttrRes fileName mode pArray).2.1⟩ := by
  simp [openFile, hr, ha, openAttrRes, headerNc, addDim, addVar, putAttInt, putAttText,
    putAttDouble, defDataDims_fst, defDataDims_snd, List.range_eq_range']

/-! ### Characterization of the attribute-definition loop of `openFile` -/

lemma attrTypeToNc_isSome (t : NDAttrDataType) (h : t ≠ .NDAttrUndefined) :
    ∃ nct, attrTypeToNc t = some nct := by
  cases t <;> simp [attrTypeToNc] at h ⊢

/-- The two `nc_put_att_*` calls done for one attribute before its type switch. -/
def attrHeaderFile (f : NcFile) (a : NDAttribute) : NcFile :=
  putAttText (putAttInt f (a.name ++ "_DataType") [attrDataTypeCode a.dataType])
    (a.name ++ "_Description") a.description

/-- The `nc_def_var` call done for one attribute: 2-D for strings, 1-D else. -/
def attrVarFile (rec0 : Nat) (sdi : List Nat) (f : NcFile) (a : NDAttribute)
    (nct : NcType) : NcFile :=
  if a.dataType = .NDAttrString then addVar f a.name nct sdi
  else addVar f a.name nct [rec0]

lemma defineAttrVars_cons_some (rec0 : Nat) (sdi : List Nat) (a : NDAttribute)
    (rest : List NDAttribute) (c : Nat) (f : NcFile) (ids : List Nat) (nct : NcType)
    (h : attrTypeToNc a.dataType = some nct) :
    defineAttrVars rec0 sdi (a :: rest) c f ids =
      defineAttrVars rec0 sdi rest (c + 1) (attrVarFile rec0 sdi (attrHeaderFile f a) a nct)
        (ids.set c f.vars.length) := by
  simp [defineAttrVars, h, attrHeaderFile, attrVarFile, putAttInt, putAttText]

lemma defineAttrVars_cons_none (rec0 : Nat) (sdi : List Nat) (a : NDAttribute)
    (rest : List NDAttribute) (c : Nat) (f : NcFile) (ids : List Nat)
    (h : attrTypeToNc a.dataType = none) :
    defineAttrVars rec0 sdi (a :: rest) c f ids = (.asynError, attrHeaderFile f a, ids) := by
  simp [defineAttrVars, h, attrHeaderFile, putAttInt, putAttText]

lemma attrHeaderFile_vars (f : NcFile) (a : NDAttribute) :
    (attrHeaderFile f a).vars = f.vars := rfl

lemma attrHeaderFile_dims (f : NcFile) (a : NDAttribute) :
    (attrHeaderFile f a).dims = f.dims := rfl

lemma attrVarFile_dims (rec0 : Nat) (sdi : List Nat) (f : NcFile) (a : NDAttribute)
    (nct : NcType) : (attrVarFile rec0 sdi f a nct).dims = f.dims := by
  unfold attrVarFile; split <;> rfl

lemma attrVarFile_vars (rec0 : Nat) (sdi : List Nat) (f : NcFile) (a : NDAttribute)
    (nct : NcType) :
    (attrVarFile rec0 sdi f a nct).vars =
      f.vars ++ [⟨a.name, nct, if a.dataType = .NDAttrString then sdi else [rec0]⟩] := by
  unfold attrVarFile; split <;> simp [addVar]

lemma attrHeaderFile_attsInt (f : NcFile) (a : NDAttribute) :
    (attrHeaderFile f a).attsInt =
      f.attsInt ++ [(a.name ++ "_DataType", [attrDataTypeCode a.dataType])] := rfl

lemma attrVarFile_attsInt (rec0 : Nat) (sdi : List Nat) (f : NcFile) (a : NDAttribute)
    (nct : NcType) : (attrVarFile rec0 sdi f a nct).attsInt = f.attsInt := by
  unfold attrVarFile; split <;> rfl

lemma defineAttrVars_dims (rec0 : Nat) (sdi : List Nat) (attrs : List NDAttribute)
    (c : Nat) (f : NcFile) (ids : List Nat) :
    (defineAttrVars rec0 sdi attrs c f ids).2.1.dims = f.dims := by
  induction attrs generalizing c f ids with
  | nil => rfl
  | cons a rest ih =>
      rcases h : attrTypeToNc a.dataType with _ | nct
      · rw [defineAttrVars_cons_none _ _ _ _ _ _ _ h]; exact attrHeaderFile_dims f a
      · rw [defineAttrVars_cons_some _ _ _ _ _ _ _ _ h, ih,
          attrVarFile_dims, attrHeaderFile_dims]

lemma defineAttrVars_vars_getElem (rec0 : Nat) (sdi : List Nat)
    (attrs : List NDAttribute) (c : Nat) (f : NcFile) (ids : List Nat)
    (k : Nat) (hk : k < f.vars.length) :
    (defineAttrVars rec0 sdi attrs c f ids).2.1.vars[k]? = f.vars[k]? := by
  induction attrs generalizing c f ids with
  | nil => rfl
  | cons a rest ih =>
      rcases h : attrTypeToNc a.dataType with _ | nct
      · rw [defineAttrVars_cons_none _ _ _ _ _ _ _ h]; rfl
      · rw [defineAttrVars_cons_some _ _ _ _ _ _ _ _ h,
          ih _ _ _ (by rw [attrVarFile_vars, attrHeaderFile_vars]; simp; omega),
          attrVarFile_vars, attrHeaderFile_vars, List.getElem?_append_left hk]

lemma defineAttrVars_attsInt_getElem (rec0 : Nat) (sdi : List Nat)
    (attrs : List NDAttribute) (c : Nat) (f : NcFile) (ids : List Nat)
    (k : Nat) (hk : k < f.attsInt.length) :
    (defineAttrVars rec0 sdi attrs c f ids).2.1.attsInt[k]? = f.attsInt[k]? := by
  induction attrs generalizing c f ids with
  | nil => rfl
  | cons a rest ih =>
      rcases h : attrTypeToNc a.dataType with _ | nct
      · rw [defineAttrVars_cons_none _ _ _ _ _ _ _ h, attrHeaderFile_attsInt,
          List.getElem?_append_left hk]
      · rw [defineAttrVars_cons_some _ _ _ _ _ _ _ _ h,
          ih _ _ _ (by rw [attrVarFile_attsInt, attrHeaderFile_attsInt]; simp; omega),
          attrVarFile_attsInt, attrHeaderFile_attsInt, List.getElem?_append_left hk]

lemma defineAttrVars_ids_length (rec0 : Nat) (sdi : List Nat)
    (attrs : List NDAttribute) (c : Nat) (f : NcFile) (ids : List Nat) :
    (defineAttrVars rec0 sdi attrs c f ids).2.2.length = ids.length := by
  induction attrs generalizing c f ids with
  | nil => rfl
  | cons a rest ih =>
      rcases h : attrTypeToNc a.dataType with _ | nct
      · rw [defineAttrVars_cons_none _ _ _ _ _ _ _ h]
      · rw [defineAttrVars_cons_some _ _ _ _ _ _ _ _ h, ih, List.length_set]

lemma defineAttrVars_ids_lt (rec0 : Nat) (sdi : List Nat)
    (attrs : List NDAttribute) (c : Nat) (f : NcFile) (ids : List Nat)
    (m : Nat) (hm : m < c) :
    (defineAttrVars rec0 sdi attrs c f ids).2.2[m]? = ids[m]? := by
  induction attrs generalizing c f ids with
  | nil => rfl
  | cons a rest ih =>
      rcases h : attrTypeToNc a.dataType with _ | nct
      · rw [defineAttrVars_cons_none _ _ _ _ _ _ _ h]
      · rw [defineAttrVars_cons_some _ _ _ _ _ _ _ _ h,
          ih _ _ _ (Nat.lt_succ_of_lt hm), List.getElem?_set_ne (by omega)]

lemma defineAttrVars_err (rec0 : Nat) (sdi : List Nat) (attrs : List NDAttribute)
    (c : Nat) (f : NcFile) (ids : List Nat)
    (h : ∃ b ∈ attrs, b.dataType = .NDAttrUndefined) :
    (defineAttrVars rec0 sdi attrs c f ids).1 = .asynError := by
  induction attrs generalizing c f ids with
  | nil => simp at h
  | cons a rest ih =>
      by_cases h0 : a.dataType = .NDAttrUndefined
      · rw [defineAttrVars_cons_none _ _ _ _ _ _ _ (by rw [h0]; rfl)]
      · obtain ⟨nct, hnct⟩ := attrTypeToNc_isSome a.dataType h0
        obtain ⟨b, hb, hbu⟩ := h
        rcases List.mem_cons.mp hb with rfl | hbr
        · exact absurd hbu h0
        · rw [defineAttrVars_cons_some _ _ _ _ _ _ _ _ hnct]
          exact ih _ _ _ ⟨b, hbr, hbu⟩

lemma defineAttrVars_get (rec0 : Nat) (sdi : List Nat) (attrs : List NDAttribute)
    (c : Nat) (f : NcFile) (ids : List Nat) (hlen : ids.length = c + attrs.length)
    (k : Nat) (a : NDAttribute) (hk : attrs[k]? = some a)
    (hdef : ∀ b ∈ attrs.take (k + 1), b.dataType ≠ .NDAttrUndefined) :
    ∃ vid v, (defineAttrVars rec0 sdi attrs c f ids).2.2[c + k]? = some vid ∧
      (defineAttrVars rec0 sdi attrs c f ids).2.1.vars[vid]? = some v ∧
      v.name = a.name ∧ attrTypeToNc a.dataType = some v.ncType := by
  induction attrs generalizing c f ids k with
  | nil => simp at hk
  | cons a0 rest ih =>
      simp only [List.length_cons] at hlen
      have ha0 : a0.dataType ≠ .NDAttrUndefined := hdef a0 (by simp [List.take_succ_cons])
      obtain ⟨nct, hnct⟩ := attrTypeToNc_isSome a0.dataType ha0
      rw [defineAttrVars_cons_some _ _ _ _ _ _ _ _ hnct]
      cases k with
      | zero =>
          have haa : a0 = a := by simpa using hk
          subst haa
          refine ⟨f.vars.length,
            ⟨a0.name, nct, if a0.dataType = .NDAttrString then sdi else [rec0]⟩, ?_, ?_, rfl, ?_⟩
          · have h1 := defineAttrVars_ids_lt rec0 sdi rest (c + 1)
              (attrVarFile rec0 sdi (attrHeaderFile f a0) a0 nct)
              (ids.set c f.vars.length) c (by omega)
            simp only [Nat.add_zero]
            rw [h1]
            exact List.getElem?_set_eq_of_lt _ (by omega)
          · rw [defineAttrVars_vars_getElem _ _ _ _ _ _ _
              (by rw [attrVarFile_vars, attrHeaderFile_vars]; simp),
              attrVarFile_vars, attrHeaderFile_vars]
            simp
          · rw [hnct]
      | succ k1 =>
          have hk1 : rest[k1]? = some a := by simpa using hk
          have hdef1 : ∀ b ∈ rest.take (k1 + 1), b.dataType ≠ .NDAttrUndefined := by
            intro b hb
            exact hdef b (by rw [List.take_succ_cons]; exact List.mem_cons_of_mem _ hb)
          have hlen1 : (ids.set c f.vars.length).length = (c + 1) + rest.length := by
            rw [List.length_set, hlen]; omega
          have hidx : c + (k1 + 1) = (c + 1) + k1 := by omega
          rw [hidx]
          exact ih (c + 1) _ _ hlen1 k1 hk1 hdef1


/-! ### Characterization of the attribute loop of `writeFile` -/

lemma writeAttrs_cons_def (ids : Option (List Nat)) (st ct : List Nat)
    (a : NDAttribute) (rest : List NDAttribute) (c : Nat) (acc : List SlabWrite)
    (h : a.dataType ≠ .NDAttrUndefined) :
    writeAttrs ids st ct (a :: rest) c acc =
      writeAttrs ids st ct rest (c + 1) (acc ++ [attrSlab ids st ct c a]) := by
  simp [writeAttrs, h]

lemma writeAttrs_cons_undef (ids : Option (List Nat)) (st ct : List Nat)
    (a : NDAttribute) (rest : List NDAttribute) (c : Nat) (acc : List SlabWrite)
    (h : a.dataType = .NDAttrUndefined) :
    writeAttrs ids st ct (a :: rest) c acc = (.asynError, acc) := by
  simp [writeAttrs, h]

lemma writeAttrs_acc (ids : Option (List Nat)) (st ct : List Nat)
    (attrs : List NDAttribute) (c : Nat) (acc : List SlabWrite)
    (k : Nat) (hk : k < acc.length) :
    (writeAttrs ids st ct attrs c acc).2[k]? = acc[k]? := by
  induction attrs generalizing c acc with
  | nil => rfl
  | cons a rest ih =>
      by_cases h : a.dataType = .NDAttrUndefined
      · rw [writeAttrs_cons_undef _ _ _ _ _ _ _ h]
      · rw [writeAttrs_cons_def _ _ _ _ _ _ _ h, ih _ _ (by simp; omega),
          List.getElem?_append_left hk]

lemma writeAttrs_get (ids : Option (List Nat)) (st ct : List Nat)
    (attrs : List NDAttribute) (c : Nat) (acc : List SlabWrite)
    (k : Nat) (a : NDAttribute) (hk : attrs[k]? = some a)
    (hdef : ∀ b ∈ attrs.take (k + 1), b.dataType ≠ .NDAttrUndefined) :
    (writeAttrs ids st ct attrs c acc).2[acc.length + k]? =
      some (attrSlab ids st ct (c + k) a) := by
  induction attrs generalizing c acc k with
  | nil => simp at hk
  | cons a0 rest ih =>
      have ha0 : a0.dataType ≠ .NDAttrUndefined := hdef a0 (by simp [List.take_succ_cons])
      rw [writeAttrs_cons_def _ _ _ _ _ _ _ ha0]
      cases k with
      | zero =>
          have haa : a0 = a := by simpa using hk
          subst haa
          simp only [Nat.add_zero]
          rw [writeAttrs_acc _ _ _ _ _ _ acc.length (by simp)]
          simp
      | succ k1 =>
          have hk1 : rest[k1]? = some a := by simpa using hk
          have hdef1 : ∀ b ∈ rest.take (k1 + 1), b.dataType ≠ .NDAttrUndefined := by
            intro b hb
            exact hdef b (by rw [List.take_succ_cons]; exact List.mem_cons_of_mem _ hb)
          have hidx : acc.length + (k1 + 1) = (acc ++ [attrSlab ids st ct c a0]).length + k1 := by
            simp; omega
          have hidx2 : c + (k1 + 1) = (c + 1) + k1 := by omega
          rw [hidx, hidx2]
          exact ih (c + 1) _ k1 hk1 hdef1

lemma writeAttrs_err (ids : Option (List Nat)) (st ct : List Nat)
    (attrs : List NDAttribute) (c : Nat) (acc : List SlabWrite)
    (k : Nat) (a : NDAttribute) (hk : attrs[k]? = some a)
    (hu : a.dataType = .NDAttrUndefined)
    (hdef : ∀ b ∈ attrs.take k, b.dataType ≠ .NDAttrUndefined) :
    (writeAttrs ids st ct attrs c acc).1 = .asynError ∧
      (writeAttrs ids st ct attrs c acc).2.length = acc.length + k := by
  induction attrs generalizing c acc k with
  | nil => simp at hk
  | cons a0 rest ih =>
      cases k with
      | zero =>
          have haa : a0 = a := by simpa using hk
          subst haa
          rw [writeAttrs_cons_undef _ _ _ _ _ _ _ hu]
          simp
      | succ k1 =>
          have ha0 : a0.dataType ≠ .NDAttrUndefined :=
            hdef a0 (by rw [List.take_succ_cons]; exact List.mem_cons_self _ _)
          have hk1 : rest[k1]? = some a := by simpa using hk
          have hdef1 : ∀ b ∈ rest.take k1, b.dataType ≠ .NDAttrUndefined := by
            intro b hb
            exact hdef b (by rw [List.take_succ_cons]; exact List.mem_cons_of_mem _ hb)
          rw [writeAttrs_cons_def _ _ _ _ _ _ _ ha0]
          obtain ⟨h1, h2⟩ := ih (c + 1) (acc ++ [attrSlab ids st ct c a0]) k1 hk1 hdef1
          refine ⟨h1, ?_⟩
          rw [h2]; simp; omega

lemma writeAttrs_ok (ids : Option (List Nat)) (st ct : List Nat)
    (attrs : List NDAttribute) (c : Nat) (acc : List SlabWrite)
    (h : ∀ b ∈ attrs, b.dataType ≠ .NDAttrUndefined) :
    (writeAttrs ids st ct attrs c acc).1 = .asynSuccess ∧
      (writeAttrs ids st ct attrs c acc).2.length = acc.length + attrs.length := by
  induction attrs generalizing c acc with
  | nil => simp [writeAttrs]
  | cons a0 rest ih =>
      have ha0 : a0.dataType ≠ .NDAttrUndefined := h a0 (List.mem_cons_self _ _)
      rw [writeAttrs_cons_def _ _ _ _ _ _ _ ha0]
      obtain ⟨h1, h2⟩ := ih (c + 1) (acc ++ [attrSlab ids st ct c a0])
        (fun b hb => h b (List.mem_cons_of_mem _ hb))
      refine ⟨h1, ?_⟩
      rw [h2]; simp; omega

lemma attrSlab_start (ids : Option (List Nat)) (st ct : List Nat) (c : Nat)
    (a : NDAttribute) : (attrSlab ids st ct c a).start = st := by
  unfold attrSlab; split <;> rfl

lemma writeAttrs_start (ids : Option (List Nat)) (st ct : List Nat)
    (attrs : List NDAttribute) (c : Nat) (acc : List SlabWrite)
    (h : ∀ w ∈ acc, w.start = st) :
    ∀ w ∈ (writeAttrs ids st ct attrs c acc).2, w.start = st := by
  induction attrs generalizing c acc with
  | nil => exact h
  | cons a0 rest ih =>
      by_cases h0 : a0.dataType = .NDAttrUndefined
      · rw [writeAttrs_cons_undef _ _ _ _ _ _ _ h0]; exact h
      · rw [writeAttrs_cons_def _ _ _ _ _ _ _ h0]
        refine ih _ _ ?_
        intro w hw
        rcases List.mem_append.mp hw with hw1 | hw2
        · exact h w hw1
        · rw [List.mem_singleton.mp hw2]; exact attrSlab_start _ _ _ _ _

/-! ### `writeFile` projections -/

lemma writeFile_status (p : NDArray) (s : Session) :
    (writeFile p s).status =
      (writeAttrs s.pAttributeId (writeStart s.nextRecord p.dims) (writeCount p.dims)
        p.attributes 0 (headerWrites p s)).1 := rfl

lemma writeFile_writes (p : NDArray) (s : Session) :
    (writeFile p s).writes =
      (writeAttrs s.pAttributeId (writeStart s.nextRecord p.dims) (writeCount p.dims)
        p.attributes 0 (headerWrites p s)).2 := rfl

lemma writeFile_pAttributeId (p : NDArray) (s : Session) :
    (writeFile p s).sess.pAttributeId = s.pAttributeId := by
  simp only [writeFile]
  split <;> rfl

lemma writeFile_sess_error (p : NDArray) (s : Session)
    (h : (writeFile p s).status = .asynError) : (writeFile p s).sess = s := by
  simp only [writeFile] at h ⊢
  rw [if_neg (by rw [h]; exact fun hc => AsynStatus.noConfusion hc)]

lemma writeFile_sess_ok (p : NDArray) (s : Session)
    (h : (writeFile p s).status = .asynSuccess) :
    (writeFile p s).sess = { s with nextRecord := s.nextRecord + 1 } := by
  simp only [writeFile] at h ⊢
  rw [if_pos h]

/-! ### Closed forms of the slab descriptor arrays -/

lemma mapRangeGetD {α : Type} (l : List α) (d : α) :
    (List.range l.length).map (fun i => l.getD i d) = l := by
  induction l with
  | nil => simp
  | cons x xs ih =>
      rw [List.length_cons, List.range_succ_eq_map, List.map_cons, List.map_map]
      have hcomp : ((fun i => (x :: xs).getD i d) ∘ Nat.succ) = fun i => xs.getD i d := by
        funext i; rfl
      rw [hcomp, ih]
      rfl

lemma rangeRevMap (n : Nat) :
    (List.range n).map (fun i => n - i - 1) = (List.range n).reverse := by
  have h := List.reverse_range' 0 n
  rw [← List.range_eq_range'] at h
  rw [h]
  exact List.map_congr_left fun i _ => by omega

lemma mapRangeRevGetD {α : Type} (l : List α) (d : α) :
    (List.range l.length).map (fun i => l.getD (l.length - i - 1) d) = l.reverse := by
  have h1 : (List.range l.length).map (fun i => l.getD (l.length - i - 1) d) =
      ((List.range l.length).map (fun i => l.length - i - 1)).map (fun j => l.getD j d) := by
    rw [List.map_map]; rfl
  rw [h1, rangeRevMap, List.map_reverse, mapRangeGetD]

lemma rangeRevSizes (dims : List NDDimension) :
    (List.range dims.length).map (fun i => (dimAt dims (dims.length - i - 1)).size) =
      (dims.map fun d => d.size).reverse := by
  have h1 : (List.range dims.length).map
        (fun i => (dimAt dims (dims.length - i - 1)).size) =
      ((List.range dims.length).map
        (fun i => dimAt dims (dims.length - i - 1))).map (fun d => d.size) := by
    rw [List.map_map]; rfl
  rw [h1]
  have h2 : (List.range dims.length).map (fun i => dimAt dims (dims.length - i - 1)) =
      dims.reverse := mapRangeRevGetD dims ⟨0, 0, 0, 0⟩
  rw [h2, List.map_reverse]

lemma writeCount_eq (dims : List NDDimension) :
    writeCount dims = 1 :: (dims.map fun d => d.size).reverse := by
  rw [writeCount, rangeRevSizes]

lemma writeStart_eq (nextRecord : Nat) (dims : List NDDimension) :
    writeStart nextRecord dims = nextRecord :: List.replicate dims.length 0 := by
  rw [writeStart, List.map_const', List.length_range]

/-! ### Helper lemmas tying `openFile` results to the header file -/

lemma openFile_dims (fileName : String) (mode : NDFileOpenMode) (pArray : NDArray)
    (s : Session) (hr : mode.read = false) (ha : mode.append = false) :
    ∃ f, (openFile fileName mode pArray s).file = some f ∧
      f.dims = (headerNc fileName mode pArray).dims := by
  rw [openFile_eq _ _ _ _ hr ha]
  exact ⟨_, rfl, defineAttrVars_dims _ _ _ _ _ _⟩

lemma headerNc_dims_getElem (fileName : String) (mode : NDFileOpenMode)
    (pArray : NDArray) (i : Nat) (hi : i < pArray.dims.length) :
    (headerNc fileName mode pArray).dims[i + 1]? = some (dataDimOf pArray.dims i) := by
  simp only [headerNc, List.getElem?_cons_succ]
  rw [List.getElem?_append_left (by simpa using hi), List.getElem?_map,
    List.getElem?_range hi]
  rfl

lemma headerNc_axes (fileName : String) (mode : NDFileOpenMode) (pArray : NDArray) :
    (((headerNc fileName mode pArray).dims.drop 1).take pArray.dims.length).map
        (fun d => d.len) =
      (pArray.dims.map fun d => d.size).reverse := by
  simp only [headerNc, List.drop_succ_cons, List.drop_zero]
  rw [List.take_left' (by simp), List.map_map]
  have hcomp : ((fun d => d.len) ∘ dataDimOf pArray.dims) =
      fun i => (dimAt pArray.dims (pArray.dims.length - i - 1)).size := by
    funext i; rfl
  rw [hcomp, rangeRevSizes]

lemma foldl_writeFile_pAttributeId (frames : List NDArray) (s : Session) :
    (frames.foldl (fun t a => (writeFile a t).sess) s).pAttributeId = s.pAttributeId := by
  induction frames generalizing s with
  | nil => rfl
  | cons p rest ih => rw [List.foldl_cons, ih, writeFile_pAttributeId]

/-! ### Concrete fixtures used by the witnesses -/

def dim2 : NDDimension := ⟨2, 0, 1, 0⟩
def dim3 : NDDimension := ⟨3, 0, 1, 0⟩
def dim4 : NDDimension := ⟨4, 0, 1, 0⟩
def attrTemp : NDAttribute := ⟨"temperature", "sensor reading", .NDAttrFloat64, []⟩
def attrNote : NDAttribute := ⟨"note", "free text", .NDAttrString, ['h', 'i']⟩
def attrBad : NDAttribute := ⟨"mystery", "typeless", .NDAttrUndefined, []⟩
def frame234 : NDArray := ⟨.NDInt16, [dim2, dim3, dim4], 42, 17, [attrTemp, attrNote]⟩
def frameBad : NDArray := ⟨.NDInt8, [dim2], 1, 0, [attrTemp, attrBad, attrNote]⟩
def frame232 : NDArray := ⟨.NDInt8, [dim2, dim3, dim2], 7, 3, []⟩
def wMode : NDFileOpenMode := ⟨false, true, false, true⟩
def w1Mode : NDFileOpenMode := ⟨false, true, false, false⟩
def rMode : NDFileOpenMode := ⟨true, false, false, false⟩
def sess5 : Session := ⟨5, some [3, 4], 0, 1, 2⟩

/-! ### The claims -/

/-- Claim C1: for every frame with `N` dimensions and every supported open
mode, `openFile` defines the file's data axes in reversed order relative to
the frame's dimension list (the axis following the record axis at position
`i+1` has length `dims[N-1-i].size`), and `writeFile` computes the slab
extent in the same reversed order: `start = {cursor, 0, ..., 0}` and
`count = {1, dims[N-1].size, ..., dims[0].size}` (so a frame with dims
`[2,3,4]` yields data axes `[4,3,2]` — see the witness). -/
theorem C1_reversed_axis_order (fileName : String) (mode : NDFileOpenMode)
    (pArray : NDArray) (s : Session) (hr : mode.read = false)
    (ha : mode.append = false) :
    (∃ f, (openFile fileName mode pArray s).file = some f ∧
      ∀ i, i < pArray.dims.length →
        f.dims[i + 1]? = some ⟨"dim" ++ toString i,
          (dimAt pArray.dims (pArray.dims.length - i - 1)).size⟩) ∧
    writeStart s.nextRecord pArray.dims =
      s.nextRecord :: List.replicate pArray.dims.length 0 ∧
    writeCount pArray.dims = 1 :: (pArray.dims.map fun d => d.size).reverse ∧
    (writeFile pArray s).writes[2]? =
      some ⟨s.arrayDataId, writeStart s.nextRecord pArray.dims,
        writeCount pArray.dims, .arrayData pArray.dataType⟩ := by
  obtain ⟨f, hf, hdims⟩ := openFile_dims fileName mode pArray s hr ha
  refine ⟨⟨f, hf, ?_⟩, writeStart_eq _ _, writeCount_eq _, ?_⟩
  · intro i hi
    rw [hdims, headerNc_dims_getElem _ _ _ i hi]
    rfl
  · rw [writeFile_writes, writeAttrs_acc _ _ _ _ _ _ 2 (by simp [headerWrites])]
    rfl

/-- Witness for C1 at the frame with dims `[2,3,4]`; the extra conjuncts
evaluate the produced file and check that the data axes come out as
`[4,3,2]` and the slab extent as `{1,4,3,2}`. -/
theorem C1_reversed_axis_order_wit :
    ((∃ f, (openFile "t.nc" wMode frame234 sess5).file = some f ∧
      ∀ i, i < frame234.dims.length →
        f.dims[i + 1]? = some ⟨"dim" ++ toString i,
          (dimAt frame234.dims (frame234.dims.length - i - 1)).size⟩) ∧
    writeStart sess5.nextRecord frame234.dims =
      sess5.nextRecord :: List.replicate frame234.dims.length 0 ∧
    writeCount frame234.dims = 1 :: (frame234.dims.map fun d => d.size).reverse ∧
    (writeFile frame234 sess5).writes[2]? =
      some ⟨sess5.arrayDataId, writeStart sess5.nextRecord frame234.dims,
        writeCount frame234.dims, .arrayData frame234.dataType⟩) ∧
    (openFile "t.nc" wMode frame234 sess5).file.map
        (fun f => ((f.dims.drop 1).take 3).map (fun d => d.len)) = some [4, 3, 2] ∧
    writeCount frame234.dims = [1, 4, 3, 2] :=
  ⟨C1_reversed_axis_order "t.nc" wMode frame234 sess5 rfl rfl, by decide, by decide⟩

/-- Claim C3: for every frame and supported open mode, `openFile` defines the
record axis as the first axis of the file, of length 1 when multiple-records
mode is not requested and unlimited (`NC_UNLIMITED`, the growable length)
when it is — independent of the frame's own dimension count and ordering. -/
theorem C3_record_axis (fileName : String) (mode : NDFileOpenMode)
    (pArray : NDArray) (s : Session) (hr : mode.read = false)
    (ha : mode.append = false) :
    ∃ f, (openFile fileName mode pArray s).file = some f ∧
      f.dims[0]? = some ⟨"numArrays", if mode.multiple then NC_UNLIMITED else 1⟩ := by
  obtain ⟨f, hf, hdims⟩ := openFile_dims fileName mode pArray s hr ha
  exact ⟨f, hf, by rw [hdims]; simp [headerNc]⟩

/-- Witness for C3 in multiple-records mode, plus an evaluated check of the
single-record mode giving a length-1 record axis. -/
theorem C3_record_axis_wit :
    (∃ f, (openFile "t.nc" wMode frame234 sess5).file = some f ∧
      f.dims[0]? = some ⟨"numArrays", if wMode.multiple then NC_UNLIMITED else 1⟩) ∧
    (openFile "t.nc" w1Mode frame234 sess5).file.map (fun f => f.dims[0]?) =
      some (some ⟨"numArrays", 1⟩) :=
  ⟨C3_record_axis "t.nc" wMode frame234 sess5 rfl rfl, by decide⟩

/-- Claim C4: `nextRecord` is 0 after a successful `openFile`, incremented by
exactly 1 by a successful `writeFile`, unchanged by a failing `writeFile`,
and used as the record-axis start offset of every slab the write issues. -/
theorem C4_write_cursor (fileName : String) (mode : NDFileOpenMode)
    (pArray pW : NDArray) (s : Session) :
    ((openFile fileName mode pArray s).status = .asynSuccess →
      (openFile fileName mode pArray s).sess.nextRecord = 0) ∧
    ((writeFile pW s).status = .asynSuccess →
      (writeFile pW s).sess.nextRecord = s.nextRecord + 1) ∧
    ((writeFile pW s).status = .asynError →
      (writeFile pW s).sess.nextRecord = s.nextRecord) ∧
    (∀ w ∈ (writeFile pW s).writes, w.start[0]? = some s.nextRecord) := by
  refine ⟨?_, ?_, ?_, ?_⟩
  · intro h
    by_cases hr : mode.read
    · simp [openFile, hr] at h
    · by_cases ha : mode.append
      · simp [openFile, hr, ha] at h
      · rw [openFile_eq _ _ _ _ (by simpa using hr) (by simpa using ha)]
  · intro h
    rw [writeFile_sess_ok _ _ h]
  · intro h
    rw [writeFile_sess_error _ _ h]
  · intro w hw
    rw [writeFile_writes] at hw
    have haccS : ∀ w2 ∈ headerWrites pW s,
        w2.start = writeStart s.nextRecord pW.dims := by
      intro w2 hw2
      simp only [headerWrites, List.mem_cons, List.not_mem_nil, or_false] at hw2
      rcases hw2 with rfl | rfl | rfl <;> rfl
    rw [writeAttrs_start _ _ _ _ _ _ haccS w hw, writeStart]
    simp

/-- Witness for C4: after opening, the cursor is 0; a successful write from
cursor 5 moves it to 6; the failing write (undefined attribute) leaves it
at 5. -/
theorem C4_write_cursor_wit :
    (openFile "t.nc" wMode frame234 sess5).sess.nextRecord = 0 ∧
    (writeFile frame234 sess5).sess.nextRecord = 6 ∧
    (writeFile frameBad sess5).sess.nextRecord = 5 :=
  ⟨(C4_write_cursor "t.nc" wMode frame234 frame234 sess5).1 (by decide),
   (C4_write_cursor "t.nc" wMode frame234 frame234 sess5).2.1 (by decide),
   (C4_write_cursor "t.nc" wMode frameBad frameBad sess5).2.2.1 (by decide)⟩

/-- Claim C6: for every file name, frame, and open mode with the read flag or
the append flag set, `openFile` returns an error before any file is created
or modified: no file value exists and the session is untouched. -/
theorem C6_unsupported_mode (fileName : String) (mode : NDFileOpenMode)
    (pArray : NDArray) (s : Session) (h : mode.read = true ∨ mode.append = true) :
    (openFile fileName mode pArray s).status = .asynError ∧
    (openFile fileName mode pArray s).file = none ∧
    (openFile fileName mode pArray s).sess = s := by
  rcases h with h | h
  · simp [openFile, h]
  · by_cases h2 : mode.read <;> simp [openFile, h, h2]

/-- Witness for C6 at read mode. -/
theorem C6_unsupported_mode_wit :
    (openFile "t.nc" rMode frame234 sess5).status = .asynError ∧
    (openFile "t.nc" rMode frame234 sess5).file = none ∧
    (openFile "t.nc" rMode frame234 sess5).sess = sess5 :=
  C6_unsupported_mode "t.nc" rMode frame234 sess5 (Or.inl rfl)

/-- Claim C2: the attribute-to-variable-id list built by `openFile` has one
entry per attribute; it is left unchanged by every subsequent `writeFile`
(also across any sequence of writes); and every `writeFile` routes the value
of the `k`-th attribute in iteration order to the `k`-th variable id recorded
at open time (`attrIdAt s.pAttributeId k`). -/
theorem C2_attr_id_stability (fileName : String) (mode : NDFileOpenMode)
    (pArray : NDArray) (frames : List NDArray) (s : Session)
    (hr : mode.read = false) (ha : mode.append = false) :
    (∃ ids, (openFile fileName mode pArray s).sess.pAttributeId = some ids ∧
      ids.length = pArray.attributes.length) ∧
    (∀ p : NDArray, (writeFile p s).sess.pAttributeId = s.pAttributeId) ∧
    ((frames.foldl (fun t a => (writeFile a t).sess) s).pAttributeId =
      s.pAttributeId) ∧
    (∀ k a, pArray.attributes[k]? = some a →
      (∀ b ∈ pArray.attributes.take (k + 1), b.dataType ≠ .NDAttrUndefined) →
      (writeFile pArray s).writes[3 + k]? =
        some (attrSlab s.pAttributeId (writeStart s.nextRecord pArray.dims)
          (writeCount pArray.dims) k a) ∧
      (attrSlab s.pAttributeId (writeStart s.nextRecord pArray.dims)
          (writeCount pArray.dims) k a).varId = attrIdAt s.pAttributeId k) := by
  refine ⟨?_, fun p => writeFile_pAttributeId p s,
    foldl_writeFile_pAttributeId frames s, ?_⟩
  · rw [openFile_eq _ _ _ _ hr ha]
    refine ⟨_, rfl, ?_⟩
    simp only [openAttrRes]
    rw [defineAttrVars_ids_length]
    simp
  · intro k a hk hdef
    constructor
    · rw [writeFile_writes]
      have h := writeAttrs_get s.pAttributeId (writeStart s.nextRecord pArray.dims)
        (writeCount pArray.dims) pArray.attributes 0 (headerWrites pArray s) k a hk hdef
      simpa [headerWrites] using h
    · unfold attrSlab
      split <;> rfl

/-- Witness for C2 at a two-attribute frame and a one-write session. -/
theorem C2_attr_id_stability_wit :
    (∃ ids, (openFile "t.nc" wMode frame234 sess5).sess.pAttributeId = some ids ∧
      ids.length = frame234.attributes.length) ∧
    (∀ p : NDArray, (writeFile p sess5).sess.pAttributeId = sess5.pAttributeId) ∧
    (([frame234].foldl (fun t a => (writeFile a t).sess) sess5).pAttributeId =
      sess5.pAttributeId) ∧
    (∀ k a, frame234.attributes[k]? = some a →
      (∀ b ∈ frame234.attributes.take (k + 1), b.dataType ≠ .NDAttrUndefined) →
      (writeFile frame234 sess5).writes[3 + k]? =
        some (attrSlab sess5.pAttributeId (writeStart sess5.nextRecord frame234.dims)
          (writeCount frame234.dims) k a) ∧
      (attrSlab sess5.pAttributeId (writeStart sess5.nextRecord frame234.dims)
          (writeCount frame234.dims) k a).varId = attrIdAt sess5.pAttributeId k) :=
  C2_attr_id_stability "t.nc" wMode frame234 [frame234] sess5 rfl rfl

/-- Claim C5: `openFile` maps element and attribute types to storage types by
the fixed table `int8/uint8 → byte`, `int16/uint16 → short`,
`int32/uint32 → int`, `float32 → float`, `float64 → double`,
`string → char`; the table is applied to the frame's element type (the
`array_data` variable) and independently to each attribute's type (that
attribute's variable); an attribute of undefined type present at open time
makes `openFile` return an error. -/
theorem C5_type_mapping (fileName : String) (mode : NDFileOpenMode)
    (pArray : NDArray) (s : Session) (hr : mode.read = false)
    (ha : mode.append = false) :
    (ncTypeOfDataType .NDInt8 = .NC_BYTE ∧ ncTypeOfDataType .NDUInt8 = .NC_BYTE ∧
     ncTypeOfDataType .NDInt16 = .NC_SHORT ∧ ncTypeOfDataType .NDUInt16 = .NC_SHORT ∧
     ncTypeOfDataType .NDInt32 = .NC_INT ∧ ncTypeOfDataType .NDUInt32 = .NC_INT ∧
     ncTypeOfDataType .NDFloat32 = .NC_FLOAT ∧
     ncTypeOfDataType .NDFloat64 = .NC_DOUBLE) ∧
    (attrTypeToNc .NDAttrInt8 = some .NC_BYTE ∧
     attrTypeToNc .NDAttrUInt8 = some .NC_BYTE ∧
     attrTypeToNc .NDAttrInt16 = some .NC_SHORT ∧
     attrTypeToNc .NDAttrUInt16 = some .NC_SHORT ∧
     attrTypeToNc .NDAttrInt32 = some .NC_INT ∧
     attrTypeToNc .NDAttrUInt32 = some .NC_INT ∧
     attrTypeToNc .NDAttrFloat32 = some .NC_FLOAT ∧
     attrTypeToNc .NDAttrFloat64 = some .NC_DOUBLE ∧
     attrTypeToNc .NDAttrString = some .NC_CHAR ∧
     attrTypeToNc .NDAttrUndefined = none) ∧
    (∃ f, (openFile fileName mode pArray s).file = some f ∧
      (f.vars[(openFile fileName mode pArray s).sess.arrayDataId]?).map NcVar.ncType =
        some (ncTypeOfDataType pArray.dataType) ∧
      (∀ k a, pArray.attributes[k]? = some a →
        (∀ b ∈ pArray.attributes.take (k + 1), b.dataType ≠ .NDAttrUndefined) →
        ∃ ids vid v, (openFile fileName mode pArray s).sess.pAttributeId = some ids ∧
          ids[k]? = some vid ∧ f.vars[vid]? = some v ∧ v.name = a.name ∧
          attrTypeToNc a.dataType = some v.ncType)) ∧
    ((∃ b ∈ pArray.attributes, b.dataType = .NDAttrUndefined) →
      (openFile fileName mode pArray s).status = .asynError) := by
  refine ⟨by decide, by decide, ?_, ?_⟩
  · rw [openFile_eq _ _ _ _ hr ha]
    refine ⟨_, rfl, ?_, ?_⟩
    · simp only [openAttrRes]
      rw [defineAttrVars_vars_getElem _ _ _ _ _ _ 2 (by simp [headerNc])]
      rfl
    · intro k a hk hdef
      simp only [openAttrRes]
      obtain ⟨vid, v, h1, h2, h3, h4⟩ := defineAttrVars_get 0
        [0, pArray.dims.length + 1] pArray.attributes 0
        (headerNc fileName mode pArray)
        (List.replicate pArray.attributes.length 0) (by simp) k a hk hdef
      exact ⟨_, vid, v, rfl, by simpa using h1, h2, h3, h4⟩
  · intro hex
    rw [openFile_eq _ _ _ _ hr ha]
    exact defineAttrVars_err _ _ _ _ _ _ hex

/-- Witness for C5 at a frame with a float64 and a string attribute; extra
conjuncts evaluate the file: `array_data` is `NC_SHORT` for an int16 frame,
`temperature` is `NC_DOUBLE`, `note` is `NC_CHAR`, and an undefined-typed
attribute makes the open fail. -/
theorem C5_type_mapping_wit :
    ((ncTypeOfDataType .NDInt8 = .NC_BYTE ∧ ncTypeOfDataType .NDUInt8 = .NC_BYTE ∧
     ncTypeOfDataType .NDInt16 = .NC_SHORT ∧ ncTypeOfDataType .NDUInt16 = .NC_SHORT ∧
     ncTypeOfDataType .NDInt32 = .NC_INT ∧ ncTypeOfDataType .NDUInt32 = .NC_INT ∧
     ncTypeOfDataType .NDFloat32 = .NC_FLOAT ∧
     ncTypeOfDataType .NDFloat64 = .NC_DOUBLE) ∧
    (attrTypeToNc .NDAttrInt8 = some .NC_BYTE ∧
     attrTypeToNc .NDAttrUInt8 = some .NC_BYTE ∧
     attrTypeToNc .NDAttrInt16 = some .NC_SHORT ∧
     attrTypeToNc .NDAttrUInt16 = some .NC_SHORT ∧
     attrTypeToNc .NDAttrInt32 = some .NC_INT ∧
     attrTypeToNc .NDAttrUInt32 = some .NC_INT ∧
     attrTypeToNc .NDAttrFloat32 = some .NC_FLOAT ∧
     attrTypeToNc .NDAttrFloat64 = some .NC_DOUBLE ∧
     attrTypeToNc .NDAttrString = some .NC_CHAR ∧
     attrTypeToNc .NDAttrUndefined = none) ∧
    (∃ f, (openFile "t.nc" wMode frame234 sess5).file = some f ∧
      (f.vars[(openFile "t.nc" wMode frame234 sess5).sess.arrayDataId]?).map
          NcVar.ncType = some (ncTypeOfDataType frame234.dataType) ∧
      (∀ k a, frame234.attributes[k]? = some a →
        (∀ b ∈ frame234.attributes.take (k + 1), b.dataType ≠ .NDAttrUndefined) →
        ∃ ids vid v,
          (openFile "t.nc" wMode frame234 sess5).sess.pAttributeId = some ids ∧
          ids[k]? = some vid ∧ f.vars[vid]? = some v ∧ v.name = a.name ∧
          attrTypeToNc a.dataType = some v.ncType)) ∧
    ((∃ b ∈ frame234.attributes, b.dataType = .NDAttrUndefined) →
      (openFile "t.nc" wMode frame234 sess5).status = .asynError)) ∧
    (openFile "t.nc" wMode frame234 sess5).file.map
        (fun f => f.vars.map (fun v => (v.name, v.ncType))) =
      some [("uniqueId", .NC_INT), ("timeStamp", .NC_DOUBLE),
        ("array_data", .NC_SHORT), ("temperature", .NC_DOUBLE),
        ("note", .NC_CHAR)] ∧
    (openFile "t.nc" wMode frameBad sess5).status = .asynError :=
  ⟨C5_type_mapping "t.nc" wMode frame234 sess5 rfl rfl, by decide, by decide⟩

/-- Claim C7: for every string-typed attribute whose value is shorter than
the configured cap, `writeFile` writes a slab whose extent along the text
axis equals the actual string length of the value — not the cap — into that
attribute's pre-mapped variable. -/
theorem C7_string_actual_length (pArray : NDArray) (s : Session) (k : Nat)
    (a : NDAttribute) (hk : pArray.attributes[k]? = some a)
    (hstr : a.dataType = .NDAttrString)
    (hlen : a.value.length < MAX_ATTRIBUTE_STRING_SIZE)
    (hdef : ∀ b ∈ pArray.attributes.take (k + 1), b.dataType ≠ .NDAttrUndefined) :
    ∃ w, (writeFile pArray s).writes[3 + k]? = some w ∧
      w.varId = attrIdAt s.pAttributeId k ∧
      w.count = [1, a.value.length] ∧
      w.count ≠ [1, MAX_ATTRIBUTE_STRING_SIZE] := by
  have hget : getValueChars a = a.value := by
    unfold getValueChars
    exact List.take_of_length_le (by omega)
  refine ⟨attrSlab s.pAttributeId (writeStart s.nextRecord pArray.dims)
    (writeCount pArray.dims) k a, ?_, ?_, ?_, ?_⟩
  · rw [writeFile_writes]
    have h := writeAttrs_get s.pAttributeId (writeStart s.nextRecord pArray.dims)
      (writeCount pArray.dims) pArray.attributes 0 (headerWrites pArray s) k a hk hdef
    simpa [headerWrites] using h
  · unfold attrSlab
    split <;> rfl
  · unfold attrSlab
    rw [if_pos hstr, hget]
  · unfold attrSlab
    rw [if_pos hstr, hget]
    simp only [MAX_ATTRIBUTE_STRING_SIZE] at hlen ⊢
    intro hc
    have := List.cons.injEq 1 [a.value.length] 1 [(256 : Nat)] ▸ hc
    simp at this
    omega

/-- Witness for C7 at the string attribute `note` (value of length 2, far
below the cap of 256). -/
theorem C7_string_actual_length_wit :
    ∃ w, (writeFile frame234 sess5).writes[3 + 1]? = some w ∧
      w.varId = attrIdAt sess5.pAttributeId 1 ∧
      w.count = [1, attrNote.value.length] ∧
      w.count ≠ [1, MAX_ATTRIBUTE_STRING_SIZE] :=
  C7_string_actual_length frame234 sess5 1 attrNote (by decide) (by decide)
    (by decide) (by decide)

/-- Claim C8: an attribute of undefined type at write time makes `writeFile`
return an error for that record, aborting at that attribute: exactly the
three header slabs plus one slab per preceding attribute have been issued
(the undefined attribute and everything after it are not written), and the
session is unchanged. -/
theorem C8_undefined_attr_write (pArray : NDArray) (s : Session) (k : Nat)
    (a : NDAttribute) (hk : pArray.attributes[k]? = some a)
    (hu : a.dataType = .NDAttrUndefined)
    (hdef : ∀ b ∈ pArray.attributes.take k, b.dataType ≠ .NDAttrUndefined) :
    (writeFile pArray s).status = .asynError ∧
    (writeFile pArray s).writes.length = 3 + k ∧
    (writeFile pArray s).sess = s := by
  have h := writeAttrs_err s.pAttributeId (writeStart s.nextRecord pArray.dims)
    (writeCount pArray.dims) pArray.attributes 0 (headerWrites pArray s) k a hk hu hdef
  refine ⟨?_, ?_, ?_⟩
  · rw [writeFile_status]
    exact h.1
  · rw [writeFile_writes, h.2]
    simp [headerWrites]
  · exact writeFile_sess_error _ _ (by rw [writeFile_status]; exact h.1)

/-- Witness for C8 at a frame whose second attribute is undefined: the write
fails, only the three header slabs and the one preceding attribute slab were
issued, and the cursor-bearing session is untouched. -/
theorem C8_undefined_attr_write_wit :
    (writeFile frameBad sess5).status = .asynError ∧
    (writeFile frameBad sess5).writes.length = 3 + 1 ∧
    (writeFile frameBad sess5).sess = sess5 :=
  C8_undefined_attr_write frameBad sess5 1 attrBad (by decide) (by decide) (by decide)

/-- Claim C9 counterexample: `closeFile` does **not** release the session's
attribute-id mapping.  On a session holding the two-entry mapping `[3, 4]`,
`closeFile` returns with the mapping still in place — neither freed (`none`,
the `NULL` state) nor cleared (`some []`).  In the source, `nc_close` is the
only action of `closeFile`; `free(this->pAttributeId)` happens at the start
of the next `openFile` (line 181), not at close. -/
theorem C9_counterexample :
    (closeFile sess5).2.pAttributeId = some [3, 4] ∧
    ¬((closeFile sess5).2.pAttributeId = none ∨
      (closeFile sess5).2.pAttributeId = some []) := by
  decide

/-- Claim C9 as amended: `closeFile` finalizes the container and leaves the
session's attribute-id mapping untouched; the mapping is released and rebuilt
(one entry per attribute) only by the next `openFile`. -/
theorem C9_close_keeps_mapping (fileName : String) (mode : NDFileOpenMode)
    (pArray : NDArray) (s s2 : Session) (hr : mode.read = false)
    (ha : mode.append = false) :
    (closeFile s).1 = .asynSuccess ∧
    (closeFile s).2 = s ∧
    (∃ ids, (openFile fileName mode pArray s2).sess.pAttributeId = some ids ∧
      ids.length = pArray.attributes.length) := by
  refine ⟨rfl, rfl, ?_⟩
  rw [openFile_eq _ _ _ _ hr ha]
  refine ⟨_, rfl, ?_⟩
  simp only [openAttrRes]
  rw [defineAttrVars_ids_length]
  simp

/-- Witness for the amended C9. -/
theorem C9_close_keeps_mapping_wit :
    (closeFile sess5).1 = .asynSuccess ∧
    (closeFile sess5).2 = sess5 ∧
    (∃ ids, (openFile "t.nc" wMode frame234 sess5).sess.pAttributeId = some ids ∧
      ids.length = frame234.attributes.length) :=
  C9_close_keeps_mapping "t.nc" wMode frame234 sess5 sess5 rfl rfl

/-- Claim C10 counterexample: the frame with dims `[2,3,2]` has more than one
dimension and dimensions of differing sizes (2 ≠ 3), yet the global `dimSize`
attribute (`[2,3,2]`, original order) and the defined data-axis lengths
(`[2,3,2]`, reversed order) coincide, because the size list is palindromic —
so the claimed order difference does not hold for every such frame. -/
theorem C10_counterexample :
    frame232.dims.map (fun d => d.size) = [2, 3, 2] ∧
    (2 : Nat) ≠ 3 ∧
    (openFile "t.nc" wMode frame232 sess5).file.map (fun f => f.attsInt[2]?) =
      some (some ("dimSize", [2, 3, 2])) ∧
    (openFile "t.nc" wMode frame232 sess5).file.map
        (fun f => ((f.dims.drop 1).take 3).map (fun d => (d.len : Int))) =
      some [2, 3, 2] := by
  decide

/-- Claim C10 as amended: the global per-dimension metadata arrays `dimSize`,
`dimOffset`, `dimBinning`, `dimReverse` written by `openFile` list the
frame's dimensions in their original (non-reversed) order — entry `i` comes
from `dims[i]` — while the file's data-axis lengths are that size list
reversed; hence the order of `dimSize` differs from the order of the defined
data axes exactly when the frame's size list is not palindromic (in
particular for frames with at least two dimensions of pairwise distinct
sizes, such as `[2,3,4]`). -/
theorem C10_dim_metadata_order (fileName : String) (mode : NDFileOpenMode)
    (pArray : NDArray) (s : Session) (hr : mode.read = false)
    (ha : mode.append = false) :
    ∃ f, (openFile fileName mode pArray s).file = some f ∧
      f.attsInt[2]? = some ("dimSize", pArray.dims.map fun d => (d.size : Int)) ∧
      f.attsInt[3]? = some ("dimOffset", pArray.dims.map fun d => d.offset) ∧
      f.attsInt[4]? = some ("dimBinning", pArray.dims.map fun d => d.binning) ∧
      f.attsInt[5]? = some ("dimReverse", pArray.dims.map fun d => d.reverse) ∧
      ((f.dims.drop 1).take pArray.dims.length).map (fun d => d.len) =
        (pArray.dims.map fun d => d.size).reverse ∧
      ((pArray.dims.map fun d => d.size) ≠ (pArray.dims.map fun d => d.size).reverse →
        pArray.dims.map (fun d => d.size) ≠
          ((f.dims.drop 1).take pArray.dims.length).map (fun d => d.len)) := by
  rw [openFile_eq _ _ _ _ hr ha]
  refine ⟨_, rfl, ?_, ?_, ?_, ?_, ?_, ?_⟩
  · simp only [openAttrRes]
    rw [defineAttrVars_attsInt_getElem _ _ _ _ _ _ 2 (by simp [headerNc])]
    rfl
  · simp only [openAttrRes]
    rw [defineAttrVars_attsInt_getElem _ _ _ _ _ _ 3 (by simp [headerNc])]
    rfl
  · simp only [openAttrRes]
    rw [defineAttrVars_attsInt_getElem _ _ _ _ _ _ 4 (by simp [headerNc])]
    rfl
  · simp only [openAttrRes]
    rw [defineAttrVars_attsInt_getElem _ _ _ _ _ _ 5 (by simp [headerNc])]
    rfl
  · simp only [openAttrRes]
    rw [defineAttrVars_dims, headerNc_axes]
  · intro hne hcon
    have haxes : (((openAttrRes fileName mode pArray).2.1.dims.drop 1).take
          pArray.dims.length).map (fun d => d.len) =
        (pArray.dims.map fun d => d.size).reverse := by
      simp only [openAttrRes]
      rw [defineAttrVars_dims, headerNc_axes]
    rw [haxes] at hcon
    exact hne hcon

/-- Witness for the amended C10 at the frame with dims `[2,3,4]`, whose
non-palindromic size list makes `dimSize` (`[2,3,4]`) and the data-axis
order (`[4,3,2]`) genuinely differ. -/
theorem C10_dim_metadata_order_wit :
    (∃ f, (openFile "t.nc" wMode frame234 sess5).file = some f ∧
      f.attsInt[2]? = some ("dimSize", frame234.dims.map fun d => (d.size : Int)) ∧
      f.attsInt[3]? = some ("dimOffset", frame234.dims.map fun d => d.offset) ∧
      f.attsInt[4]? = some ("dimBinning", frame234.dims.map fun d => d.binning) ∧
      f.attsInt[5]? = some ("dimReverse", frame234.dims.map fun d => d.reverse) ∧
      ((f.dims.drop 1).take frame234.dims.length).map (fun d => d.len) =
        (frame234.dims.map fun d => d.size).reverse ∧
      ((frame234.dims.map fun d => d.size) ≠
          (frame234.dims.map fun d => d.size).reverse →
        frame234.dims.map (fun d => d.size) ≠
          ((f.dims.drop 1).take frame234.dims.length).map (fun d => d.len))) ∧
    (openFile "t.nc" wMode frame234 sess5).file.map
        (fun f => ((f.dims.drop 1).take 3).map (fun d => d.len)) = some [4, 3, 2] ∧
    frame234.dims.map (fun d => d.size) = [2, 3, 4] :=
  ⟨C10_dim_metadata_order "t.nc" wMode frame234 sess5 rfl rfl, by decide, by decide⟩

end NDFileNetCDF
